import Mathlib

/-!
Shallow embedding of the Thalamus reconciliation / data layer
(`examples/thalamus_system/core/database.py`) and proofs about the
behaviour of its operations.

Conventions of the embedding:

* The SQLite database reached through `get_db()` is modelled as an explicit
  `DB` state record; every `cur.execute` that writes becomes a state update.
  `get_db`'s `finally: conn.commit()` commits whatever statements already
  ran even when the body raised, so an operation that fails midway returns
  the partially updated state (no rollback is modelled because none exists
  in the source).
* Python runtime values that can be handed to the driver are modelled by
  `PyVal`: None, ints, floats as exact rationals (plus a marker for the
  non-finite floats Python's json can produce), strings, booleans, lists
  and dicts.  SQLite REAL columns hold `Rat`; no floating-point arithmetic
  occurs anywhere in the modelled code, only storage and retrieval.
* `json_loads` implements the grammar Python's `json.loads` accepts:
  objects, arrays, strings with escapes, numbers (integer literals exactly
  as ints; literals with a fraction or exponent as floats, modelled by the
  exact rational), `true`/`false`/`null` and the `NaN`/`Infinity`/
  `-Infinity` extensions.  `pyIntParse` implements CPython's base-10
  `int(str)` grammar — surrounding whitespace, a sign, digits with single
  underscores between digits — for ASCII input; the statements that rely
  on `int(str)` failing are gated on ASCII payloads for this reason.
* Fallible operations return `Except DbErr _ × DB`: the raised Python
  exception together with the state that the closing `conn.commit()`
  persisted.
-/

namespace Thalamus

/-- Python runtime values reaching the database layer: `None`, `int`,
`float` (finite ones modelled exactly as `Rat`, plus a marker for
`nan`/`inf` which Python's json can produce), `str`, `bool`, `list` and
`dict`. -/
inductive PyVal where
  | vnone : PyVal
  | vint (n : Int) : PyVal
  | vrat (q : Rat) : PyVal
  | vnonfinite (isnan : Bool) : PyVal
  | vstr (s : String) : PyVal
  | vbool (b : Bool) : PyVal
  | vlist (xs : List PyVal) : PyVal
  | vdict (xs : List (String × PyVal)) : PyVal

/-- The signed 64-bit range SQLite integers live in; binding a Python int
outside it raises `OverflowError`. -/
def inI64 (n : Int) : Bool := decide (-(2 ^ 63) ≤ n ∧ n < 2 ^ 63)

/-- Python truthiness (`if source_segments:`): `None`, `0`, `0.0`, `""`,
`False`, `[]` and `{}` are falsy, everything else (including `nan` and
`inf`) truthy. -/
def PyVal.truthy : PyVal → Bool
  | .vnone => false
  | .vint n => n != 0
  | .vrat q => q != 0
  | .vnonfinite _ => true
  | .vstr s => s != ""
  | .vbool b => b
  | .vlist xs => !xs.isEmpty
  | .vdict xs => !xs.isEmpty

/-- Whether `sqlite3` can bind the value as a statement parameter.
Binding a Python `list` or `dict` raises (`InterfaceError: unsupported
type`) and an int beyond 64 bits raises `OverflowError`; `None`, in-range
ints, floats, bools and strings bind fine. -/
def PyVal.bindOk : PyVal → Bool
  | .vlist _ => false
  | .vdict _ => false
  | .vint n => inI64 n
  | _ => true

/-- Errors surfaced by the modelled operations.  `valueError` is the
`ValueError` raised by `get_or_create_session` on a blank id;
`notNullViolation` is SQLite's NOT NULL `IntegrityError`; `bindError` is a
parameter-binding failure (unsupported type / rowid datatype mismatch). -/
inductive DbErr where
  | valueError
  | notNullViolation
  | bindError
deriving Repr, DecidableEq

/-! ### Character / string helpers shared by the parsers -/

/-- JSON / SQL whitespace used by the parsers. -/
def wsChar (c : Char) : Bool := c = ' ' || c = '\t' || c = '\n' || c = '\r'

/-- Drop leading whitespace. -/
def skipWs : List Char → List Char
  | c :: cs => if wsChar c then skipWs cs else c :: cs
  | [] => []

/-- Split a leading run of decimal digits from the rest. -/
def takeDigits : List Char → List Char × List Char
  | c :: cs =>
      if c.isDigit then
        let p := takeDigits cs
        (c :: p.1, p.2)
      else ([], c :: cs)
  | [] => ([], [])

/-- Numeric value of a digit string. -/
def digitsToNat (ds : List Char) : Nat :=
  ds.foldl (fun a c => a * 10 + (c.toNat - ('0').toNat)) 0

/-- Python `str.strip()` leaves nothing, i.e. the string is empty or all
whitespace (`not session_id or not session_id.strip()`). -/
def pyBlank (s : String) : Bool := s.toList.all Char.isWhitespace

/-- ASCII characters CPython's `int(str)` strips as surrounding
whitespace: tab through carriage return (including vertical tab and form
feed) and space. -/
def pyWsChar (c : Char) : Bool :=
  decide (9 ≤ c.toNat ∧ c.toNat ≤ 13) || c == ' '

/-- CPython's base-10 digit grammar for `int(str)`: one or more digits,
with single underscores allowed only between digits.  `prevDigit` records
whether the previous character was a digit. -/
def pyDigitsCore (prevDigit : Bool) (acc : Nat) : List Char → Option Nat
  | [] => if prevDigit then some acc else none
  | c :: rest =>
      if c.isDigit then
        pyDigitsCore true (acc * 10 + (c.toNat - ('0').toNat)) rest
      else if c = '_' ∧ prevDigit then pyDigitsCore false acc rest
      else none

/-- All characters are 7-bit ASCII. -/
def asciiOnly (s : String) : Bool := s.toList.all (fun c => c.toNat < 128)

/-- Python `int(s)`: strip surrounding whitespace, optional sign, then the
base-10 digit grammar (underscore grouping included); anything else raises
`ValueError` (`none`).  Faithful for ASCII input; CPython additionally
accepts non-ASCII decimal digits and whitespace, which the statements that
depend on `int(str)` failing exclude via `asciiOnly`. -/
def pyIntParse (s : String) : Option Int :=
  let core := ((s.toList.dropWhile pyWsChar).reverse.dropWhile pyWsChar).reverse
  match core with
  | '-' :: rest => (pyDigitsCore false 0 rest).map (fun n => -(n : Int))
  | '+' :: rest => (pyDigitsCore false 0 rest).map (fun n => (n : Int))
  | cs => (pyDigitsCore false 0 cs).map (fun n => (n : Int))

/-! ### `json.loads`

The parser below follows the grammar Python's `json.loads` accepts (the
default decoder): objects, arrays, strings with the eight single-character
escapes and `\uXXXX`, numbers `-?(0|[1-9][0-9]*)(.[0-9]+)?([eE][+-]?[0-9]+)?`
— an int when neither fraction nor exponent is present, otherwise a float —
plus `true`, `false`, `null` and the non-standard `NaN`, `Infinity`,
`-Infinity` constants.  Anything else raises `JSONDecodeError` (`none`).
Float values are represented by their exact rational; no proved statement
depends on a float's value. -/

/-- Hex digit value. -/
def hexVal (c : Char) : Option Nat :=
  if c.isDigit then some (c.toNat - ('0').toNat)
  else if 'a' ≤ c ∧ c ≤ 'f' then some (c.toNat - ('a').toNat + 10)
  else if 'A' ≤ c ∧ c ≤ 'F' then some (c.toNat - ('A').toNat + 10)
  else none

/-- Body of a JSON string after the opening quote: any character other
than the quote, the backslash and raw control characters below 0x20
(rejected by the strict decoder), plus escapes.  The code unit decoded
from `\uXXXX` is immaterial to every proved statement (surrogate halves
fall back the way `Char.ofNat` does). -/
def parseStringBody : List Char → Option (List Char × List Char)
  | '"' :: rest => some ([], rest)
  | '\\' :: e :: rest =>
      match e with
      | '"' => (parseStringBody rest).map (fun p => ('"' :: p.1, p.2))
      | '\\' => (parseStringBody rest).map (fun p => ('\\' :: p.1, p.2))
      | '/' => (parseStringBody rest).map (fun p => ('/' :: p.1, p.2))
      | 'b' => (parseStringBody rest).map (fun p => (Char.ofNat 8 :: p.1, p.2))
      | 'f' => (parseStringBody rest).map (fun p => (Char.ofNat 12 :: p.1, p.2))
      | 'n' => (parseStringBody rest).map (fun p => ('\n' :: p.1, p.2))
      | 'r' => (parseStringBody rest).map (fun p => ('\r' :: p.1, p.2))
      | 't' => (parseStringBody rest).map (fun p => ('\t' :: p.1, p.2))
      | 'u' =>
          match rest with
          | h1 :: h2 :: h3 :: h4 :: r2 =>
              match hexVal h1, hexVal h2, hexVal h3, hexVal h4 with
              | some a, some b, some c, some d =>
                  (parseStringBody r2).map (fun p =>
                    (Char.ofNat (((a * 16 + b) * 16 + c) * 16 + d) :: p.1, p.2))
              | _, _, _, _ => none
          | _ => none
      | _ => none
  | c :: rest =>
      if c.toNat < 32 then none
      else (parseStringBody rest).map (fun p => (c :: p.1, p.2))
  | [] => none

/-- The exact rational value of a JSON number with integer part `ival`,
fractional digits `fd` and signed decimal exponent. -/
def jsonRatValue (neg : Bool) (ival : Nat) (fd : List Char)
    (eneg : Bool) (ev : Nat) : Rat :=
  let base : Rat :=
    ((ival * 10 ^ fd.length + digitsToNat fd : Nat) : Rat) /
      ((10 : Rat) ^ fd.length)
  let scaled := if eneg then base / ((10 : Rat) ^ ev) else base * ((10 : Rat) ^ ev)
  if neg then -scaled else scaled

/-- The optional exponent part `([eE][+-]?[0-9]+)?`; yields whether an
exponent was present, its sign and value, and the rest — `none` when an
`e` is present but malformed. -/
def parseJsonExp (cs : List Char) : Option (Bool × Bool × Nat × List Char) :=
  match cs with
  | 'e' :: r | 'E' :: r =>
      let p : Bool × List Char :=
        match r with
        | '-' :: t => (true, t)
        | '+' :: t => (false, t)
        | t => (false, t)
      match takeDigits p.2 with
      | ([], _) => none
      | (ds, r3) => some (true, p.1, digitsToNat ds, r3)
  | _ => some (false, false, 0, cs)

/-- A JSON number: an integer literal yields a Python `int` (exactly); a
fraction or exponent yields a float, modelled as the exact rational.
Leading zeros are not consumed (`01` parses as `0` with `1` left over,
which the surrounding context then rejects — the same behaviour as
Python's decoder). -/
def parseJsonNumber (cs : List Char) : Option (PyVal × List Char) :=
  let sp : Bool × List Char :=
    match cs with
    | '-' :: r => (true, r)
    | _ => (false, cs)
  match sp.2 with
  | c :: _ =>
      if c.isDigit then
        let ipp : Nat × List Char :=
          if c = '0' then (0, sp.2.tail)
          else
            let p := takeDigits sp.2
            (digitsToNat p.1, p.2)
        match ipp.2 with
        | '.' :: r =>
            match takeDigits r with
            | ([], _) => none
            | (fd, cs3) =>
                match parseJsonExp cs3 with
                | some (_, eneg, ev, cs4) =>
                    some (.vrat (jsonRatValue sp.1 ipp.1 fd eneg ev), cs4)
                | none => none
        | cs2 =>
            match parseJsonExp cs2 with
            | some (present, eneg, ev, cs4) =>
                if present then
                  some (.vrat (jsonRatValue sp.1 ipp.1 [] eneg ev), cs4)
                else
                  some (.vint (if sp.1 then -(ipp.1 : Int) else (ipp.1 : Int)), cs4)
            | none => none
      else none
  | [] => none

mutual

/-- Parse one JSON value. -/
def parseJsonValue : Nat → List Char → Option (PyVal × List Char)
  | 0, _ => none
  | fuel + 1, cs =>
      match skipWs cs with
      | '[' :: rest =>
          match skipWs rest with
          | ']' :: r2 => some (.vlist [], r2)
          | cs2 => parseJsonElems fuel cs2 []
      | '{' :: rest =>
          match skipWs rest with
          | '}' :: r2 => some (.vdict [], r2)
          | cs2 => parseJsonMembers fuel cs2 []
      | '"' :: rest =>
          (parseStringBody rest).map (fun p => (.vstr (String.mk p.1), p.2))
      | 't' :: 'r' :: 'u' :: 'e' :: r => some (.vbool true, r)
      | 'f' :: 'a' :: 'l' :: 's' :: 'e' :: r => some (.vbool false, r)
      | 'n' :: 'u' :: 'l' :: 'l' :: r => some (.vnone, r)
      | 'N' :: 'a' :: 'N' :: r => some (.vnonfinite true, r)
      | 'I' :: 'n' :: 'f' :: 'i' :: 'n' :: 'i' :: 't' :: 'y' :: r =>
          some (.vnonfinite false, r)
      | '-' :: 'I' :: 'n' :: 'f' :: 'i' :: 'n' :: 'i' :: 't' :: 'y' :: r =>
          some (.vnonfinite false, r)
      | cs1 => parseJsonNumber cs1

/-- Parse the comma-separated elements of a non-empty array, after `[`. -/
def parseJsonElems : Nat → List Char → List PyVal → Option (PyVal × List Char)
  | 0, _, _ => none
  | fuel + 1, cs, acc =>
      match parseJsonValue fuel cs with
      | none => none
      | some (v, r) =>
          match skipWs r with
          | ',' :: r2 => parseJsonElems fuel r2 (acc ++ [v])
          | ']' :: r2 => some (.vlist (acc ++ [v]), r2)
          | _ => none

/-- Parse the members of a non-empty object, after `{`. -/
def parseJsonMembers : Nat → List Char → List (String × PyVal) →
    Option (PyVal × List Char)
  | 0, _, _ => none
  | fuel + 1, cs, acc =>
      match skipWs cs with
      | '"' :: rest =>
          match parseStringBody rest with
          | none => none
          | some (k, r1) =>
              match skipWs r1 with
              | ':' :: r2 =>
                  match parseJsonValue fuel r2 with
                  | none => none
                  | some (v, r3) =>
                      match skipWs r3 with
                      | ',' :: r4 =>
                          parseJsonMembers fuel r4 (acc ++ [(String.mk k, v)])
                      | '}' :: r4 =>
                          some (.vdict (acc ++ [(String.mk k, v)]), r4)
                      | _ => none
              | _ => none
      | _ => none

end

/-- `json.loads`: parse one value and require only whitespace to remain. -/
def json_loads (s : String) : Option PyVal :=
  match parseJsonValue (2 * s.length + 2) s.toList with
  | some (v, r) => if (skipWs r).isEmpty then some v else none
  | none => none

/-- SQLite whitespace for numeric text conversion. -/
def sqliteWsChar (c : Char) : Bool :=
  c == ' ' || decide (9 ≤ c.toNat ∧ c.toNat ≤ 13)

/-- A SQLite numeric text literal (after sign): digits, an optional
fraction, an optional exponent, requiring at least one mantissa digit and
full consumption; yields the exact rational value. -/
def sqliteNumCore (cs : List Char) : Option Rat :=
  let ipp := takeDigits cs
  let fpp : List Char × List Char :=
    match ipp.2 with
    | '.' :: t => takeDigits t
    | _ => ([], ipp.2)
  if ipp.1.isEmpty ∧ fpp.1.isEmpty then none
  else
    let mant : Rat :=
      ((digitsToNat ipp.1 * 10 ^ fpp.1.length + digitsToNat fpp.1 : Nat) : Rat) /
        ((10 : Rat) ^ fpp.1.length)
    match fpp.2 with
    | [] => some mant
    | 'e' :: t | 'E' :: t =>
        let sp : Bool × List Char :=
          match t with
          | '-' :: u => (true, u)
          | '+' :: u => (false, u)
          | u => (false, u)
        match takeDigits sp.2 with
        | ([], _) => none
        | (ds, t3) =>
            if t3.isEmpty then
              some (if sp.1 then mant / ((10 : Rat) ^ digitsToNat ds)
                    else mant * ((10 : Rat) ^ digitsToNat ds))
            else none
    | _ => none

/-- SQLite's INTEGER-affinity coercion of TEXT into a rowid key: the whole
string (modulo surrounding whitespace) must be a numeric literal whose
value is integral and within 64 bits; otherwise the insert raises a
datatype mismatch.  (Modelled with exact arithmetic.) -/
def sqliteIntOfText (s : String) : Option Int :=
  let core :=
    ((s.toList.dropWhile sqliteWsChar).reverse.dropWhile sqliteWsChar).reverse
  let sp : Bool × List Char :=
    match core with
    | '-' :: r => (true, r)
    | '+' :: r => (false, r)
    | _ => (false, core)
  match sqliteNumCore sp.2 with
  | some q =>
      let q := if sp.1 then -q else q
      if q.den = 1 ∧ inI64 q.num then some q.num else none
  | none => none

/-! ### Schema: rows and database state

Columns follow `init_db` / the defensive bootstrap in `get_db`
(`database.py` lines 86-137 and 160-220).  Surrogate keys are SQLite
AUTOINCREMENT rowids, modelled by per-table `next…Id` counters that play
the role of `cur.lastrowid` after an insert. -/

/-- A `sessions` row: `(id, session_id UNIQUE, created_at)`; `created_at`
defaults and is never read by the modelled operations. -/
structure SessionRow where
  id : Int
  session_id : String
deriving Repr, DecidableEq

/-- A `speakers` row: `(id, name NOT NULL, created_at)`. -/
structure SpeakerRow where
  id : Int
  name : String
deriving Repr, DecidableEq

/-- A `raw_segments` row. -/
structure RawRow where
  id : Int
  session_id : Int
  speaker_id : Int
  text : String
  start_time : Rat
  end_time : Rat
  timestamp : String
deriving Repr, DecidableEq

/-- A `refined_segments` row.  The seven columns `update_refined_segment`
may touch hold whatever Python value was bound for them (`PyVal`); the
remaining columns are only ever written by `insert_refined_segment` with
fixed types. -/
structure RefinedRow where
  id : Int
  session_id : Int
  refined_speaker_id : Int
  text : PyVal
  start_time : PyVal
  end_time : PyVal
  confidence_score : PyVal
  source_segments : PyVal
  metadata : PyVal
  last_update : String
  is_processing : Int
  is_locked : PyVal

/-- A `segment_usage` row: `raw_segment_id` is the primary key. -/
structure UsageRow where
  raw_segment_id : Int
  refined_segment_id : Int
  timestamp : String
deriving Repr, DecidableEq

/-- The database state behind `get_db()`.  Table contents are kept in
insertion (= rowid) order, which is the order an unindexed SQLite scan and
`fetchone()` observe. `now` stands for `CURRENT_TIMESTAMP`. -/
structure DB where
  sessions : List SessionRow
  speakers : List SpeakerRow
  raw_segments : List RawRow
  refined_segments : List RefinedRow
  segment_usage : List UsageRow
  nextSessionId : Int
  nextSpeakerId : Int
  nextRawId : Int
  nextRefinedId : Int
  now : String

/-- `session_id: Union[str, int]` arguments: either the surrogate key or
the external string id. -/
inductive SessionRef where
  | pk (n : Int)
  | ext (s : String)

/-! ### Identity resolvers -/

/-- `get_or_create_session` (`database.py` lines 453-468): reject blank
ids with `ValueError`, look the external id up, insert on miss and return
`cur.lastrowid`. -/
def get_or_create_session (db : DB) (session_id : String) : Except DbErr Int × DB :=
  if pyBlank session_id then (.error .valueError, db)
  else
    match db.sessions.find? (fun r => r.session_id == session_id) with
    | some r => (.ok r.id, db)
    | none =>
        let i := db.nextSessionId
        (.ok i, { db with sessions := db.sessions ++ [⟨i, session_id⟩],
                          nextSessionId := i + 1 })

/-- `SELECT id FROM speakers WHERE name = ?` with a possibly-NULL bound
name: SQL `NULL` compares equal to nothing. -/
def nameMatches (target : Option String) (r : SpeakerRow) : Bool :=
  match target with
  | none => false
  | some t => r.name == t

/-- `get_or_create_speaker` (`database.py` lines 470-487): find by exact
name (the numeric `speaker_id` hint and `is_user` are ignored), else insert
`(name)`.  There is no argument validation; inserting a `None` name hits
the NOT NULL constraint on `speakers.name`. -/
def get_or_create_speaker (db : DB) (speaker_id : Option Int)
    (speaker_name : Option String) (is_user : Bool) :
    Except DbErr Int × DB :=
  match db.speakers.find? (nameMatches speaker_name) with
  | some r => (.ok r.id, db)
  | none =>
      match speaker_name with
      | none => (.error .notNullViolation, db)
      | some nm =>
          let i := db.nextSpeakerId
          (.ok i, { db with speakers := db.speakers ++ [⟨i, nm⟩],
                            nextSpeakerId := i + 1 })

/-- Resolve a `Union[str, int]` session reference the way `insert_segment`
and `insert_refined_segment` do: an `int` is used as the surrogate key
directly, a `str` goes through `get_or_create_session`. -/
def resolveSession (db : DB) : SessionRef → Except DbErr Int × DB
  | .pk n => (.ok n, db)
  | .ext s => get_or_create_session db s

/-! ### Segment store -/

/-- `insert_segment` (`database.py` lines 489-510): resolve the session
reference, then append a `raw_segments` row and return `cur.lastrowid`.
(Foreign keys are not enforced: `PRAGMA foreign_keys` is never turned on
for this connection.) -/
def insert_segment (db : DB) (session_id : SessionRef) (speaker_id : Int)
    (text : String) (start_time end_time : Rat) (log_timestamp : String) :
    Except DbErr Int × DB :=
  match resolveSession db session_id with
  | (.error e, db1) => (.error e, db1)
  | (.ok pk, db1) =>
      let i := db1.nextRawId
      (.ok i, { db1 with
        raw_segments := db1.raw_segments ++
          [⟨i, pk, speaker_id, text, start_time, end_time, log_timestamp⟩],
        nextRawId := i + 1 })

/-- A row of the `get_unrefined_segments` result set. -/
structure RawView where
  id : Int
  session_id : String
  speaker_id : Int
  text : String
  start_time : Rat
  end_time : Rat
  timestamp : String
  speaker_name : String
deriving Repr, DecidableEq

/-- The optional session filter of `get_unrefined_segments`: applied only
when the argument is a truthy (non-empty) string.  The `AND` the code
appends lands on the `JOIN speakers … ON` clause after the trailing `--`
comment lines, which for an inner join filters exactly like a `WHERE`. -/
def sessionFilterOk (filter : Option String) (se : SessionRow) : Bool :=
  match filter with
  | none => true
  | some x => if x == "" then true else se.session_id == x

/-- `get_unrefined_segments` (`database.py` lines 512-553): inner-join
`raw_segments` with `sessions` and `speakers`, optionally filtered by the
external session id.  Deliberately does not consult `segment_usage`. -/
def get_unrefined_segments (db : DB) (session_id : Option String) : List RawView :=
  db.raw_segments.flatMap (fun rs =>
    db.sessions.flatMap (fun se =>
      db.speakers.filterMap (fun sp =>
        if rs.session_id = se.id ∧ rs.speaker_id = sp.id ∧
            sessionFilterOk session_id se = true then
          some ⟨rs.id, se.session_id, rs.speaker_id, rs.text, rs.start_time,
                rs.end_time, rs.timestamp, sp.name⟩
        else none)))

/-- The parse of `source_segments` into the `raw_ids` list
(`database.py` lines 601-617): a `str` goes through `json.loads`, falling
back to `int(...)`, falling back to the empty list; any other value is
wrapped in a singleton list; a non-list `json.loads` result is wrapped. -/
def computeRawIds (source_segments : PyVal) : List PyVal :=
  match source_segments with
  | .vstr s =>
      match json_loads s with
      | some v =>
          match v with
          | .vlist xs => xs
          | other => [other]
      | none =>
          match pyIntParse s with
          | some n => [.vint n]
          | none => []
  | other => [other]

/-- Outcome of binding one parsed raw id into
`segment_usage.raw_segment_id` (`INTEGER PRIMARY KEY`, a rowid alias): an
integral key, SQL `NULL` (which makes SQLite auto-assign a rowid), or a
raised error — unsupported type (`list`/`dict`), out-of-range int
(`OverflowError`), or a rowid datatype mismatch (non-integral or infinite
float, non-numeric text).  `INSERT OR IGNORE` suppresses none of these,
only key conflicts. -/
inductive BindKey where
  | key (n : Int)
  | null
  | err
deriving Repr, DecidableEq

/-- How one `raw_id` binds into the rowid-alias key column: Python ints in
64-bit range directly; bools as 0/1 (`bool` is an `int` subclass); finite
floats by lossless integer conversion; text by SQLite numeric coercion;
`None` — and `nan`, which sqlite3 stores as NULL — as SQL NULL;
`inf`/`-inf` is a datatype mismatch. -/
def bindRawId : PyVal → BindKey
  | .vint n => if inI64 n then .key n else .err
  | .vbool b => .key (if b then 1 else 0)
  | .vrat q => if q.den = 1 ∧ inI64 q.num then .key q.num else .err
  | .vnonfinite isnan => if isnan then .null else .err
  | .vnone => .null
  | .vstr s =>
      match sqliteIntOfText s with
      | some n => .key n
      | none => .err
  | .vlist _ => .err
  | .vdict _ => .err

/-- The rowid SQLite auto-assigns when NULL is inserted into a rowid
alias: one more than the largest key in use, 1 on an empty table. -/
def autoRowid (us : List UsageRow) : Int :=
  match us.map (fun u => u.raw_segment_id) with
  | [] => 1
  | k :: ks => ks.foldl max k + 1

/-- `INSERT OR IGNORE INTO segment_usage (raw_segment_id,
refined_segment_id) VALUES (?, ?)`: a primary-key conflict is silently
ignored, otherwise the row is appended. -/
def insertOrIgnoreUsage (usage : List UsageRow) (k rid : Int) (now : String) :
    List UsageRow :=
  if usage.any (fun u => u.raw_segment_id == k) then usage
  else usage ++ [⟨k, rid, now⟩]

/-- The `for raw_id in raw_ids:` loop of `insert_refined_segment` (lines
619-623), executed left to right; a key that cannot be bound raises,
leaving the usage rows inserted so far in place. -/
def recordUsageLoop (now : String) (rid : Int) :
    List PyVal → List UsageRow → Except DbErr Unit × List UsageRow
  | [], us => (.ok (), us)
  | v :: rest, us =>
      match bindRawId v with
      | .key k => recordUsageLoop now rid rest (insertOrIgnoreUsage us k rid now)
      | .null => recordUsageLoop now rid rest (us ++ [⟨autoRowid us, rid, now⟩])
      | .err => (.error .bindError, us)

/-- `insert_refined_segment` (`database.py` lines 565-629).  Sequence: 1)
resolve the session reference; 2) execute the `refined_segments` INSERT —
which binds `source_segments` as a parameter and therefore raises if it is
a Python list; 3) if `source_segments` is truthy, parse it and insert the
usage records one by one with `INSERT OR IGNORE`; 4) commit.  Any raised
exception is logged and re-raised (`handle_database_error` with
`rethrow=True`), and `get_db`'s `finally: conn.commit()` still commits the
statements that already ran, so the error outcome carries the partially
updated state. -/
def insert_refined_segment (db : DB) (session_id : SessionRef)
    (refined_speaker_id : Int) (text : String) (start_time end_time : Rat)
    (confidence_score : Rat) (source_segments : PyVal)
    (metadata : PyVal) (is_processing : Int) :
    Except DbErr Int × DB :=
  match resolveSession db session_id with
  | (.error e, db1) => (.error e, db1)
  | (.ok pk, db1) =>
      if source_segments.bindOk ∧ metadata.bindOk then
        let rid := db1.nextRefinedId
        let row : RefinedRow :=
          { id := rid, session_id := pk, refined_speaker_id := refined_speaker_id,
            text := .vstr text, start_time := .vrat start_time,
            end_time := .vrat end_time, confidence_score := .vrat confidence_score,
            source_segments := source_segments, metadata := metadata,
            last_update := db1.now, is_processing := is_processing,
            is_locked := .vint 0 }
        let db2 := { db1 with
          refined_segments := db1.refined_segments ++ [row],
          nextRefinedId := rid + 1 }
        if source_segments.truthy then
          match recordUsageLoop db2.now rid (computeRawIds source_segments)
              db2.segment_usage with
          | (.ok _, us) => (.ok rid, { db2 with segment_usage := us })
          | (.error e, us) => (.error e, { db2 with segment_usage := us })
        else (.ok rid, db2)
      else (.error .bindError, db1)

/-- The field whitelist of `update_refined_segment`
(`database.py` line 701). -/
def updateWhitelist : List String :=
  ["text", "start_time", "end_time", "confidence_score", "source_segments",
   "metadata", "is_locked"]

/-- `key in [...]` for the update whitelist. -/
def isWhitelisted (k : String) : Bool := updateWhitelist.contains k

/-- One `{key} = ?` assignment of the dynamically built `SET` clause. -/
def applyField (r : RefinedRow) (kv : String × PyVal) : RefinedRow :=
  match kv with
  | ("text", v) => { r with text := v }
  | ("start_time", v) => { r with start_time := v }
  | ("end_time", v) => { r with end_time := v }
  | ("confidence_score", v) => { r with confidence_score := v }
  | ("source_segments", v) => { r with source_segments := v }
  | ("metadata", v) => { r with metadata := v }
  | ("is_locked", v) => { r with is_locked := v }
  | _ => r

/-- `update_refined_segment` (`database.py` lines 691-724): keep only
whitelisted kwargs, return `False` when none remain, otherwise run one
`UPDATE … WHERE id = ?` and return `True` — regardless of how many rows
matched.  Any exception (e.g. an unbindable value) is caught and turned
into `False` with no state change. -/
def update_refined_segment (db : DB) (segment_id : Int)
    (kwargs : List (String × PyVal)) : Bool × DB :=
  let fields := kwargs.filter (fun kv => isWhitelisted kv.1)
  if fields.isEmpty then (false, db)
  else if fields.all (fun kv => kv.2.bindOk) then
    (true, { db with refined_segments :=
      db.refined_segments.map (fun r =>
        if r.id = segment_id then fields.foldl applyField r else r) })
  else (false, db)

/-! ### Legacy migration of `raw_segments.session_id` (TEXT → INTEGER) -/

/-- A legacy `raw_segments` row whose `session_id` column is TEXT. -/
structure LegacyRawRow where
  id : Int
  session_id : String
  speaker_id : Int
  text : String
  start_time : Rat
  end_time : Rat
  timestamp : String
deriving Repr, DecidableEq

/-- SQLite `rs.session_id GLOB '[0-9]*'`: the first character is a decimal
digit (the `*` matches any remainder, including none). -/
def globDigitStart (s : String) : Bool :=
  match s.toList with
  | c :: _ => c.isDigit
  | [] => false

/-- SQLite `CAST(s AS INTEGER)`: the longest leading integer (after
optional whitespace and sign), `0` when there is none. -/
def castTextToInt (s : String) : Int :=
  match skipWs s.toList with
  | '-' :: rest => -(digitsToNat (takeDigits rest).1 : Int)
  | '+' :: rest => (digitsToNat (takeDigits rest).1 : Int)
  | cs => (digitsToNat (takeDigits cs).1 : Int)

/-- The per-row value computed by the migration's `INSERT INTO
raw_segments_new … SELECT` when the `sessions` table exists
(`database.py` lines 342-351): `COALESCE` of the matching session
surrogate key and, failing that, the `CASE WHEN … GLOB '[0-9]*' THEN
CAST(…) ELSE NULL END` integer cast.  A value matching neither yields SQL
`NULL`. -/
def migrateRawSessionValue (sessions : List SessionRow) (s : String) : Option Int :=
  match sessions.find? (fun se => se.session_id == s) with
  | some se => some se.id
  | none => if globDigitStart s then some (castTextToInt s) else none

/-- The data-copying statement of `migrate_database_schema` for a legacy
`raw_segments` table when `sessions` exists (which it always does — the
`get_db` bootstrap creates it): one `INSERT … SELECT` into
`raw_segments_new`, whose `session_id` column is `INTEGER NOT NULL`.  A
`NULL` mapped value violates NOT NULL, aborting the whole statement (and,
rethrown, the migration) with nothing copied. -/
def migrate_raw_segments (sessions : List SessionRow)
    (rows : List LegacyRawRow) : Except DbErr (List RawRow) :=
  rows.mapM (fun r =>
    match migrateRawSessionValue sessions r.session_id with
    | some pk => .ok ⟨r.id, pk, r.speaker_id, r.text, r.start_time,
                      r.end_time, r.timestamp⟩
    | none => .error .notNullViolation)

/-! ### Concrete states used to instantiate the theorems -/

/-- A freshly initialised store: `init_db` on an empty file. -/
def emptyDB : DB := ⟨[], [], [], [], [], 1, 1, 1, 1, "T0"⟩

/-- A store with one speaker row, as after `get_or_create_speaker(1, "A")`. -/
def dbSpeakerA : DB := { emptyDB with speakers := [⟨1, "A"⟩], nextSpeakerId := 2 }

/-- A store whose `segment_usage` already claims raw segment 1 for refined
segment 5. -/
def dbUsage1 : DB := { emptyDB with segment_usage := [⟨1, 5, "T0"⟩] }

/-- A store with one session row and one refined row, as left by
`get_or_create_session("s1")` followed by an `insert_refined_segment`. -/
def dbRefined1 : DB :=
  { emptyDB with
    sessions := [⟨1, "s1"⟩], nextSessionId := 2,
    refined_segments := [⟨1, 1, 1, .vstr "old", .vrat 0, .vrat 1, .vrat 0,
                          .vnone, .vnone, "T0", 0, .vint 0⟩],
    nextRefinedId := 2 }

/-! ### List helper lemmas -/

/-- `find?` skips a prefix in which nothing matches. -/
theorem find?_append_of_none {α : Type} {p : α → Bool} {l1 l2 : List α}
    (h : l1.find? p = none) : (l1 ++ l2).find? p = l2.find? p := by
  induction l1 with
  | nil => rfl
  | cons a t ih =>
      rw [List.find?_cons] at h
      rw [List.cons_append, List.find?_cons]
      cases hpa : p a with
      | true => rw [hpa] at h; exact absurd h (by simp)
      | false => rw [hpa] at h; exact ih h

/-- Filtering twice with the same predicate filters once. -/
theorem filter_self_idem {α : Type} (p : α → Bool) (l : List α) :
    (l.filter p).filter p = l.filter p := by
  induction l with
  | nil => rfl
  | cons a t ih =>
      cases hpa : p a with
      | true => simp [List.filter_cons, hpa, ih]
      | false => simp [List.filter_cons, hpa, ih]

/-- A list in which no element matches filters to nothing. -/
theorem filter_eq_nil_of_none {α : Type} {p : α → Bool} {l : List α}
    (h : ∀ a ∈ l, p a = false) : l.filter p = [] := by
  induction l with
  | nil => rfl
  | cons a t ih =>
      rw [List.filter_cons, h a (List.mem_cons_self a t)]
      exact ih (fun b hb => h b (List.mem_cons_of_mem a hb))

/-- Mapping a pointwise-identity function changes nothing. -/
theorem map_eq_self_of {α : Type} {f : α → α} {l : List α}
    (h : ∀ a ∈ l, f a = a) : l.map f = l := by
  induction l with
  | nil => rfl
  | cons a t ih =>
      rw [List.map_cons, h a (List.mem_cons_self a t),
          ih (fun b hb => h b (List.mem_cons_of_mem a hb))]

/-- Build a `Forall₂` between a list and its image under `map`. -/
theorem forall2_map_self {α β : Type} {P : α → β → Prop} {f : α → β}
    {l : List α} (h : ∀ a ∈ l, P a (f a)) : List.Forall₂ P l (l.map f) := by
  induction l with
  | nil => exact List.Forall₂.nil
  | cons a t ih =>
      exact List.Forall₂.cons (h a (List.mem_cons_self a t))
        (ih (fun b hb => h b (List.mem_cons_of_mem a hb)))

/-- Build a reflexive-style `Forall₂` on one list. -/
theorem forall2_self_of {α : Type} {P : α → α → Prop} {l : List α}
    (h : ∀ a ∈ l, P a a) : List.Forall₂ P l l := by
  induction l with
  | nil => exact List.Forall₂.nil
  | cons a t ih =>
      exact List.Forall₂.cons (h a (List.mem_cons_self a t))
        (ih (fun b hb => h b (List.mem_cons_of_mem a hb)))

/-! ### Behaviour of the usage-recording loop -/

/-- `INSERT OR IGNORE` either leaves the table alone or appends a row whose
key is new. -/
theorem insertOrIgnoreUsage_cases (us : List UsageRow) (k rid : Int) (now : String) :
    insertOrIgnoreUsage us k rid now = us ∨
    (insertOrIgnoreUsage us k rid now = us ++ [⟨k, rid, now⟩] ∧
      ∀ u ∈ us, u.raw_segment_id ≠ k) := by
  unfold insertOrIgnoreUsage
  cases ha : us.any (fun u => u.raw_segment_id == k) with
  | true => left; simp
  | false =>
      right
      constructor
      · simp
      · intro u hu
        have := List.any_eq_false.mp ha u hu
        simpa using this

/-- Every element of a list is bounded by a `foldl max` over it. -/
theorem le_foldl_max (l : List Int) :
    ∀ a x : Int, (x = a ∨ x ∈ l) → x ≤ l.foldl max a := by
  induction l with
  | nil =>
      intro a x h
      rcases h with rfl | h
      · exact le_refl x
      · cases h
  | cons b t ih =>
      intro a x h
      have hbase : max a b ≤ t.foldl max (max a b) :=
        ih (max a b) (max a b) (Or.inl rfl)
      rcases h with rfl | h
      · exact le_trans (le_max_left x b) hbase
      · rcases List.mem_cons.mp h with rfl | ht
        · exact le_trans (le_max_right a x) hbase
        · exact ih (max a b) x (Or.inr ht)

/-- An auto-assigned rowid is strictly larger than every key in use, hence
fresh. -/
theorem autoRowid_not_mem (us : List UsageRow) :
    autoRowid us ∉ us.map (fun u => u.raw_segment_id) := by
  intro hmem
  unfold autoRowid at hmem
  cases hm : us.map (fun u => u.raw_segment_id) with
  | nil => rw [hm] at hmem; cases hmem
  | cons k ks =>
      rw [hm] at hmem
      simp only [] at hmem
      have hle := le_foldl_max ks k (ks.foldl max k + 1)
        (by
          rcases List.mem_cons.mp hmem with h | h
          · exact Or.inl h
          · exact Or.inr h)
      omega

/-- The usage loop only ever appends rows to `segment_usage`, never
modifies or removes existing ones — whether it finishes or fails. -/
theorem recordUsageLoop_append (now : String) (rid : Int) (l : List PyVal) :
    ∀ us : List UsageRow, ∃ new, (recordUsageLoop now rid l us).2 = us ++ new := by
  induction l with
  | nil => intro us; exact ⟨[], by simp [recordUsageLoop]⟩
  | cons v t ih =>
      intro us
      unfold recordUsageLoop
      cases hk : bindRawId v with
      | err => exact ⟨[], by simp⟩
      | key k =>
          obtain ⟨new, hnew⟩ := ih (insertOrIgnoreUsage us k rid now)
          rcases insertOrIgnoreUsage_cases us k rid now with hc | ⟨hc, _⟩
          · exact ⟨new, by rw [hnew, hc]⟩
          · refine ⟨⟨k, rid, now⟩ :: new, ?_⟩
            rw [hnew, hc, List.append_assoc]
            rfl
      | null =>
          obtain ⟨new, hnew⟩ := ih (us ++ [⟨autoRowid us, rid, now⟩])
          refine ⟨⟨autoRowid us, rid, now⟩ :: new, ?_⟩
          rw [hnew, List.append_assoc]
          rfl

/-- The usage loop preserves key-uniqueness of `segment_usage`
(`raw_segment_id` is the primary key, conflicts are ignored, and an
auto-assigned rowid is fresh). -/
theorem recordUsageLoop_nodup (now : String) (rid : Int) (l : List PyVal) :
    ∀ us : List UsageRow,
      (us.map (fun u => u.raw_segment_id)).Nodup →
      (((recordUsageLoop now rid l us).2).map (fun u => u.raw_segment_id)).Nodup := by
  induction l with
  | nil => intro us h; simpa [recordUsageLoop] using h
  | cons v t ih =>
      intro us h
      unfold recordUsageLoop
      cases hk : bindRawId v with
      | err => simpa using h
      | key k =>
          have hstep : ((insertOrIgnoreUsage us k rid now).map
              (fun u => u.raw_segment_id)).Nodup := by
            rcases insertOrIgnoreUsage_cases us k rid now with hc | ⟨hc, hnotin⟩
            · rw [hc]; exact h
            · rw [hc, List.map_append]
              rw [List.nodup_append]
              refine ⟨h, List.nodup_singleton _, ?_⟩
              intro a ha hb
              have hak : a = k := by simpa using hb
              obtain ⟨u, hu, hval⟩ := List.mem_map.mp ha
              exact hnotin u hu (hval.trans hak ▸ rfl)
          exact ih (insertOrIgnoreUsage us k rid now) hstep
      | null =>
          have hstep : ((us ++ [(⟨autoRowid us, rid, now⟩ : UsageRow)]).map
              (fun u => u.raw_segment_id)).Nodup := by
            rw [List.map_append, List.nodup_append]
            refine ⟨h, List.nodup_singleton _, ?_⟩
            intro a ha hb
            have hak : a = autoRowid us := by simpa using hb
            rw [hak] at ha
            exact autoRowid_not_mem us ha
          exact ih (us ++ [⟨autoRowid us, rid, now⟩]) hstep

/-- The usage loop succeeds whenever every parsed id binds as an integer
key. -/
theorem recordUsageLoop_ok (now : String) (rid : Int) (l : List PyVal)
    (h : ∀ v ∈ l, ∃ k, bindRawId v = .key k) :
    ∀ us : List UsageRow, (recordUsageLoop now rid l us).1 = .ok () := by
  induction l with
  | nil => intro us; rfl
  | cons v t ih =>
      intro us
      unfold recordUsageLoop
      cases hk : bindRawId v with
      | err =>
          obtain ⟨k, hkey⟩ := h v (List.mem_cons_self v t)
          rw [hk] at hkey
          cases hkey
      | null =>
          obtain ⟨k, hkey⟩ := h v (List.mem_cons_self v t)
          rw [hk] at hkey
          cases hkey
      | key k => exact ih (fun w hw => h w (List.mem_cons_of_mem v hw)) _

/-! ### Frame facts about session resolution -/

/-- `get_or_create_session` touches only the `sessions` table and its id
counter. -/
theorem get_or_create_session_frame (db : DB) (s : String) :
    (get_or_create_session db s).2.speakers = db.speakers ∧
    (get_or_create_session db s).2.raw_segments = db.raw_segments ∧
    (get_or_create_session db s).2.refined_segments = db.refined_segments ∧
    (get_or_create_session db s).2.segment_usage = db.segment_usage ∧
    (get_or_create_session db s).2.nextRefinedId = db.nextRefinedId ∧
    (get_or_create_session db s).2.now = db.now := by
  unfold get_or_create_session
  split
  · exact ⟨rfl, rfl, rfl, rfl, rfl, rfl⟩
  · split <;> exact ⟨rfl, rfl, rfl, rfl, rfl, rfl⟩

/-- `resolveSession` touches only the `sessions` table and its id
counter. -/
theorem resolveSession_frame (db : DB) (sref : SessionRef) :
    (resolveSession db sref).2.speakers = db.speakers ∧
    (resolveSession db sref).2.raw_segments = db.raw_segments ∧
    (resolveSession db sref).2.refined_segments = db.refined_segments ∧
    (resolveSession db sref).2.segment_usage = db.segment_usage ∧
    (resolveSession db sref).2.nextRefinedId = db.nextRefinedId ∧
    (resolveSession db sref).2.now = db.now := by
  cases sref with
  | pk n => exact ⟨rfl, rfl, rfl, rfl, rfl, rfl⟩
  | ext s => exact get_or_create_session_frame db s

/-! ### Claims -/

/-- C1: each raw segment id appears in at most one `segment_usage` record:
whatever `insert_refined_segment` is called with — including
`sourceSegments` overlapping ids already recorded — the pre-existing usage
records are left exactly as they were (new records are only appended, a
duplicate insert is ignored rather than replacing or erroring), and key
uniqueness of `segment_usage` (cardinality per raw id ≤ 1) is
preserved. -/
theorem insert_refined_segment_usage_at_most_once
    (db : DB) (sref : SessionRef) (spk : Int) (text : String)
    (st en conf : Rat) (ss md : PyVal) (ip : Int)
    (h : (db.segment_usage.map (fun u => u.raw_segment_id)).Nodup) :
    (∃ new, (insert_refined_segment db sref spk text st en conf ss md ip).2.segment_usage
        = db.segment_usage ++ new) ∧
    (((insert_refined_segment db sref spk text st en conf ss md ip).2.segment_usage.map
        (fun u => u.raw_segment_id)).Nodup) := by
  obtain ⟨-, -, -, husage, -, -⟩ := resolveSession_frame db sref
  rcases hres : resolveSession db sref with ⟨res, db1⟩
  rw [hres] at husage
  unfold insert_refined_segment
  rw [hres]
  cases res with
  | error e =>
      exact ⟨⟨[], by rw [husage, List.append_nil]⟩, by rw [husage]; exact h⟩
  | ok pk =>
      dsimp only
      split
      · split
        · have happ := recordUsageLoop_append db1.now db1.nextRefinedId
            (computeRawIds ss) db1.segment_usage
          have hnd := recordUsageLoop_nodup db1.now db1.nextRefinedId
            (computeRawIds ss) db1.segment_usage (by rw [husage]; exact h)
          split
          next u us heq =>
            rw [heq] at happ hnd
            obtain ⟨new, hnew⟩ := happ
            exact ⟨⟨new, husage ▸ hnew⟩, hnd⟩
          next e us heq =>
            rw [heq] at happ hnd
            obtain ⟨new, hnew⟩ := happ
            exact ⟨⟨new, husage ▸ hnew⟩, hnd⟩
        · exact ⟨⟨[], by rw [husage, List.append_nil]⟩, by rw [husage]; exact h⟩
      · exact ⟨⟨[], by rw [husage, List.append_nil]⟩, by rw [husage]; exact h⟩

/-- Witness for C1: a concrete call whose `sourceSegments` overlap the
already-claimed raw id 1 appends only the fresh id and keeps uniqueness. -/
theorem insert_refined_segment_usage_at_most_once_witness :
    (∃ new, (insert_refined_segment dbUsage1 (.pk 1) 1 "merged" 0 1 0
        (.vstr "[1,2]") .vnone 0).2.segment_usage
        = dbUsage1.segment_usage ++ new) ∧
    (((insert_refined_segment dbUsage1 (.pk 1) 1 "merged" 0 1 0
        (.vstr "[1,2]") .vnone 0).2.segment_usage.map
        (fun u => u.raw_segment_id)).Nodup) :=
  insert_refined_segment_usage_at_most_once dbUsage1 (.pk 1) 1 "merged" 0 1 0
    (.vstr "[1,2]") .vnone 0 (by decide)

/-- C2 (amended): `insert_refined_segment` is not transactional.  Once the
session is resolved and the refined-row INSERT binds, the refined row —
with `is_processing` exactly as supplied, `0` (false) by default — is in
the state returned by the closing commit whether the call succeeds or
fails during usage recording, together with exactly the usage records
inserted before the failure point; nothing is ever rolled back. -/
theorem insert_refined_segment_no_rollback
    (db db1 : DB) (sref : SessionRef) (pk spk : Int) (text : String)
    (st en conf : Rat) (ss md : PyVal) (ip : Int)
    (h1 : resolveSession db sref = (.ok pk, db1))
    (h2 : ss.bindOk = true) (h3 : md.bindOk = true) :
    ((insert_refined_segment db sref spk text st en conf ss md ip).2.refined_segments
      = db1.refined_segments ++
        [⟨db1.nextRefinedId, pk, spk, .vstr text, .vrat st, .vrat en, .vrat conf,
          ss, md, db1.now, ip, .vint 0⟩]) ∧
    (∃ new, (insert_refined_segment db sref spk text st en conf ss md ip).2.segment_usage
      = db1.segment_usage ++ new) := by
  unfold insert_refined_segment
  rw [h1]
  dsimp only
  rw [if_pos ⟨h2, h3⟩]
  split
  · have happ := recordUsageLoop_append db1.now db1.nextRefinedId
      (computeRawIds ss) db1.segment_usage
    split
    next u us heq => rw [heq] at happ; exact ⟨rfl, happ⟩
    next e us heq => rw [heq] at happ; exact ⟨rfl, happ⟩
  · exact ⟨rfl, ⟨[], (List.append_nil _).symm⟩⟩

/-- C2 counterexample: on an empty store,
`insert_refined_segment(1, 1, "merged", 0, 1, source_segments="[1, [2]]")`
fails while recording usage (the nested list cannot be bound as a raw id),
yet the returned state holds a committed refined row with
`is_processing = 0` (false) and a usage record only for raw id 1 — raw id
2 is missing.  This refutes the claim that no failure commits a
non-processing refined row with missing usage records. -/
theorem insert_refined_segment_partial_commit_counterexample :
    ((insert_refined_segment emptyDB (.pk 1) 1 "merged" 0 1 0
        (.vstr "[1, [2]]") .vnone 0).1 = Except.error DbErr.bindError) ∧
    ((insert_refined_segment emptyDB (.pk 1) 1 "merged" 0 1 0
        (.vstr "[1, [2]]") .vnone 0).2.refined_segments.map
        (fun r => (r.id, r.is_processing)) = [(1, 0)]) ∧
    ((insert_refined_segment emptyDB (.pk 1) 1 "merged" 0 1 0
        (.vstr "[1, [2]]") .vnone 0).2.segment_usage.map
        (fun u => u.raw_segment_id) = [1]) :=
  ⟨rfl, rfl, rfl⟩

/-- Witness for C2: the amended no-rollback theorem applied at the
concrete failing input. -/
theorem insert_refined_segment_no_rollback_witness :
    ((insert_refined_segment emptyDB (.pk 1) 1 "merged" 0 1 0
        (.vstr "[1, [2]]") .vnone 0).2.refined_segments
      = emptyDB.refined_segments ++
        [⟨emptyDB.nextRefinedId, 1, 1, .vstr "merged", .vrat 0, .vrat 1, .vrat 0,
          .vstr "[1, [2]]", .vnone, emptyDB.now, 0, .vint 0⟩]) ∧
    (∃ new, (insert_refined_segment emptyDB (.pk 1) 1 "merged" 0 1 0
        (.vstr "[1, [2]]") .vnone 0).2.segment_usage
      = emptyDB.segment_usage ++ new) :=
  insert_refined_segment_no_rollback emptyDB emptyDB (.pk 1) 1 1 "merged" 0 1 0
    (.vstr "[1, [2]]") .vnone 0 rfl rfl rfl

/-- C3: evaluation of the migration's data copy at the spec's legacy
scenario.  A row whose TEXT `session_id` equals a known external id maps
to the session surrogate key and a numeric-literal row maps to its integer
value, but one junk row (matching no session and not starting with a
digit) makes the `COALESCE(…, CASE … ELSE NULL END)` produce SQL `NULL`
for the `INTEGER NOT NULL` column, so the copy statement — and with it the
migration — aborts with a NOT NULL violation instead of writing a
sentinel. -/
theorem migrate_raw_segments_junk_aborts :
    (migrate_raw_segments [⟨1, "s1"⟩]
        [⟨1, "s1", 1, "hello", 0, 1, "t1"⟩, ⟨2, "77", 1, "world", 1, 2, "t2"⟩]
      = .ok [⟨1, 1, 1, "hello", 0, 1, "t1"⟩, ⟨2, 77, 1, "world", 1, 2, "t2"⟩]) ∧
    (migrate_raw_segments [⟨1, "s1"⟩]
        [⟨1, "s1", 1, "hello", 0, 1, "t1"⟩, ⟨2, "junk", 1, "world", 1, 2, "t2"⟩]
      = .error .notNullViolation) :=
  ⟨rfl, rfl⟩

/-- The `raw_id` values the amended success statement covers: Python ints
within the 64-bit range.  (Everything else a JSON payload can contain —
floats, bools, strings, nulls, containers — lies outside the proved
success shapes, which keeps the statement within the exactly-modelled
behaviour.) -/
def okRawId : PyVal → Bool
  | .vint n => inI64 n
  | _ => false

/-- Success condition on `source_segments` values covered by the amended
claim: absent, a bare in-range id, or an ASCII string that JSON-parses to
an in-range id or a flat list of in-range ids, that `int()`-parses to an
in-range id, or that neither JSON-parses nor `int()`-parses (degrading to
no usage recorded). -/
def sourceShapeOk : PyVal → Bool
  | .vnone => true
  | .vint n => inI64 n
  | .vstr s =>
      asciiOnly s &&
      (match json_loads s with
       | some (.vlist xs) => xs.all okRawId
       | some (.vint n) => inI64 n
       | some _ => false
       | none =>
           match pyIntParse s with
           | some n => inI64 n
           | none => true)
  | _ => false

/-- C4 (amended): with a surrogate-key session reference,
`insert_refined_segment` returns the fresh refined id for `sourceSegments`
shaped as absent, a single bare in-range id, or an ASCII string that
JSON-parses to an in-range id or flat id list, `int()`-parses, or parses
as neither; in that last, unparseable case no usage record is written.
(An already-parsed id collection is NOT accepted: see the counterexample —
binding the Python list raises before the refined row is inserted.) -/
theorem insert_refined_segment_source_shapes
    (db : DB) (pk spk : Int) (text : String) (st en conf : Rat)
    (ss md : PyVal) (ip : Int)
    (h : sourceShapeOk ss = true) (hmd : md.bindOk = true) :
    ((insert_refined_segment db (.pk pk) spk text st en conf ss md ip).1
      = .ok db.nextRefinedId) ∧
    ((∃ s, ss = .vstr s ∧ json_loads s = none ∧ pyIntParse s = none) →
      (insert_refined_segment db (.pk pk) spk text st en conf ss md ip).2.segment_usage
        = db.segment_usage) := by
  have hbind : ss.bindOk = true := by
    cases ss with
    | vnone => rfl
    | vint n => exact h
    | vrat q => exact Bool.noConfusion h
    | vnonfinite b => rfl
    | vstr s => rfl
    | vbool b => rfl
    | vlist xs => exact Bool.noConfusion h
    | vdict xs => exact Bool.noConfusion h
  have hids : ss.truthy = true →
      ∀ v ∈ computeRawIds ss, ∃ k, bindRawId v = .key k := by
    intro htr v hv
    cases ss with
    | vnone => simp [PyVal.truthy] at htr
    | vint n =>
        have hn : inI64 n = true := h
        have hcr : computeRawIds (.vint n) = [.vint n] := rfl
        rw [hcr] at hv
        simp at hv
        subst hv
        exact ⟨n, by simp [bindRawId, hn]⟩
    | vrat q => exact Bool.noConfusion h
    | vnonfinite b => exact Bool.noConfusion h
    | vbool b => exact Bool.noConfusion h
    | vlist xs => exact Bool.noConfusion h
    | vdict xs => exact Bool.noConfusion h
    | vstr s =>
        simp only [computeRawIds] at hv
        simp only [sourceShapeOk, Bool.and_eq_true] at h
        obtain ⟨hascii, h⟩ := h
        cases hj : json_loads s with
        | some v0 =>
            rw [hj] at hv h
            cases v0 with
            | vlist xs =>
                have hok := List.all_eq_true.mp h v hv
                cases v with
                | vint m =>
                    exact ⟨m, by
                      simp [bindRawId, show inI64 m = true from hok]⟩
                | vnone => exact Bool.noConfusion hok
                | vrat q => exact Bool.noConfusion hok
                | vnonfinite b => exact Bool.noConfusion hok
                | vstr t => exact Bool.noConfusion hok
                | vbool b => exact Bool.noConfusion hok
                | vlist ys => exact Bool.noConfusion hok
                | vdict ys => exact Bool.noConfusion hok
            | vint m =>
                simp at hv
                subst hv
                exact ⟨m, by simp [bindRawId, show inI64 m = true from h]⟩
            | vnone => exact Bool.noConfusion h
            | vrat q => exact Bool.noConfusion h
            | vnonfinite b => exact Bool.noConfusion h
            | vstr t => exact Bool.noConfusion h
            | vbool b => exact Bool.noConfusion h
            | vdict ys => exact Bool.noConfusion h
        | none =>
            rw [hj] at hv h
            cases hp : pyIntParse s with
            | some m =>
                rw [hp] at hv h
                simp at hv
                subst hv
                exact ⟨m, by simp [bindRawId, show inI64 m = true from h]⟩
            | none => rw [hp] at hv; simp at hv
  unfold insert_refined_segment
  dsimp only [resolveSession]
  rw [if_pos ⟨hbind, hmd⟩]
  constructor
  · split
    next htr =>
      have hok := recordUsageLoop_ok db.now db.nextRefinedId
        (computeRawIds ss) (hids htr) db.segment_usage
      split
      next u us heq => rfl
      next e us heq => rw [heq] at hok; exact absurd hok (by simp)
    next htr => rfl
  · rintro ⟨s, hs, hjson, hint⟩
    subst hs
    have hraw : computeRawIds (.vstr s) = [] := by
      simp only [computeRawIds]
      rw [hjson, hint]
    split
    · rw [hraw]
      split
      next u us heq =>
        have : (recordUsageLoop db.now db.nextRefinedId [] db.segment_usage).2
            = db.segment_usage := rfl
        rw [heq] at this
        exact this
      next e us heq =>
        have : (recordUsageLoop db.now db.nextRefinedId [] db.segment_usage).1
            = .ok () := rfl
        rw [heq] at this
        exact absurd this (by simp)
    · rfl

/-- C4 counterexample: passing an already-parsed id collection (a Python
list) makes the refined-row INSERT itself fail to bind, so the whole
operation errors and nothing is inserted — the call does not succeed for
this accepted-per-the-claim shape. -/
theorem insert_refined_segment_parsed_list_fails :
    insert_refined_segment emptyDB (.pk 1) 1 "merged" 0 1 0
      (.vlist [.vint 1, .vint 2]) .vnone 0
      = (Except.error DbErr.bindError, emptyDB) :=
  rfl

/-- Witness for C4: a serialized JSON id list succeeds, and an unparseable
string still succeeds while recording no usage. -/
theorem insert_refined_segment_source_shapes_witness :
    ((insert_refined_segment emptyDB (.pk 1) 1 "merged" 0 1 0
        (.vstr "not json") .vnone 0).1 = .ok emptyDB.nextRefinedId) ∧
    ((∃ s, (PyVal.vstr "not json") = .vstr s ∧ json_loads s = none ∧
        pyIntParse s = none) →
      (insert_refined_segment emptyDB (.pk 1) 1 "merged" 0 1 0
        (.vstr "not json") .vnone 0).2.segment_usage = emptyDB.segment_usage) :=
  insert_refined_segment_source_shapes emptyDB 1 1 "merged" 0 1 0
    (.vstr "not json") .vnone 0 rfl rfl

/-- Introduction rule for membership in the `get_unrefined_segments` join:
a raw row whose session and speaker rows are present, subject to the
optional session filter, contributes its view row. -/
theorem mem_get_unrefined (db : DB) (f : Option String) (rs : RawRow)
    (se : SessionRow) (sp : SpeakerRow) (h1 : rs ∈ db.raw_segments)
    (h2 : se ∈ db.sessions) (h3 : sp ∈ db.speakers) (h4 : rs.session_id = se.id)
    (h5 : rs.speaker_id = sp.id) (h6 : sessionFilterOk f se = true) :
    (⟨rs.id, se.session_id, rs.speaker_id, rs.text, rs.start_time, rs.end_time,
      rs.timestamp, sp.name⟩ : RawView) ∈ get_unrefined_segments db f := by
  unfold get_unrefined_segments
  refine List.mem_flatMap.mpr ⟨rs, h1, ?_⟩
  refine List.mem_flatMap.mpr ⟨se, h2, ?_⟩
  refine List.mem_filterMap.mpr ⟨sp, h3, ?_⟩
  rw [if_pos ⟨h4, h5, h6⟩]

/-- C5: a raw segment inserted through `insert_segment` with text `T` and
bounds `S`, `E` into session `X` comes back through
`get_unrefined_segments X` with identical `T`, `S`, `E` — and the view is
insensitive to the contents of `segment_usage`, so this holds no matter
which raw ids are already recorded as used. -/
theorem raw_segment_roundtrip (db : DB) (X : String) (spk : Int) (nm : String)
    (T : String) (S E : Rat) (ts : String)
    (hX : pyBlank X = false) (hsp : (⟨spk, nm⟩ : SpeakerRow) ∈ db.speakers) :
    ∃ rid db1,
      insert_segment db (.ext X) spk T S E ts = (.ok rid, db1) ∧
      (∃ v ∈ get_unrefined_segments db1 (some X),
        v.id = rid ∧ v.text = T ∧ v.start_time = S ∧ v.end_time = E) ∧
      (∀ u, get_unrefined_segments { db1 with segment_usage := u } (some X)
        = get_unrefined_segments db1 (some X)) := by
  have hsession : ∃ pk db0, get_or_create_session db X = (.ok pk, db0) ∧
      (∃ se ∈ db0.sessions, se.id = pk ∧ se.session_id = X) ∧
      db0.speakers = db.speakers ∧ db0.raw_segments = db.raw_segments := by
    unfold get_or_create_session
    split
    next hc => rw [hX] at hc; simp at hc
    next hc =>
      split
      next r hfind =>
          refine ⟨r.id, db, rfl, ⟨r, List.mem_of_find?_eq_some hfind, rfl, ?_⟩,
            rfl, rfl⟩
          have := List.find?_some hfind
          simpa using this
      next hfind =>
          refine ⟨db.nextSessionId, _, rfl,
            ⟨⟨db.nextSessionId, X⟩, ?_, rfl, rfl⟩, rfl, rfl⟩
          exact List.mem_append_right _ (List.mem_singleton.mpr rfl)
  obtain ⟨pk, db0, hgs, ⟨se, hse, hseid, hsesid⟩, hsp0, hraw0⟩ := hsession
  have hres : resolveSession db (.ext X) = (.ok pk, db0) := hgs
  unfold insert_segment
  rw [hres]
  dsimp only
  refine ⟨db0.nextRawId, _, rfl, ?_, fun u => rfl⟩
  have hmem := mem_get_unrefined
    { db0 with
      raw_segments := db0.raw_segments ++ [⟨db0.nextRawId, pk, spk, T, S, E, ts⟩],
      nextRawId := db0.nextRawId + 1 }
    (some X) ⟨db0.nextRawId, pk, spk, T, S, E, ts⟩ se ⟨spk, nm⟩
    (List.mem_append_right _ (List.mem_singleton.mpr rfl)) hse
    (by dsimp only; rw [hsp0]; exact hsp) hseid.symm rfl
    (by
      have hfo : sessionFilterOk (some X) se
          = (if (X == "") = true then true else se.session_id == X) := rfl
      rw [hfo, hsesid]
      split <;> simp)
  exact ⟨_, hmem, rfl, rfl, rfl, rfl⟩

/-- Witness for C5: a concrete insert into session `"s1"` with speaker
`A` round-trips through the view. -/
theorem raw_segment_roundtrip_witness :
    ∃ rid db1,
      insert_segment dbSpeakerA (.ext "s1") 1 "hello" 0 1 "t1" = (.ok rid, db1) ∧
      (∃ v ∈ get_unrefined_segments db1 (some "s1"),
        v.id = rid ∧ v.text = "hello" ∧ v.start_time = 0 ∧ v.end_time = 1) ∧
      (∀ u, get_unrefined_segments { db1 with segment_usage := u } (some "s1")
        = get_unrefined_segments db1 (some "s1")) :=
  raw_segment_roundtrip dbSpeakerA "s1" 1 "A" "hello" 0 1 "t1" (by decide)
    (by decide)

/-- C6: speaker identity is resolved by exact name match only.  For any
name `N` and any two id hints (and `is_user` flags), the calls are
literally the same function of the state — the hint is ignored — and two
successive calls return the same speaker key with no further state
change. -/
theorem get_or_create_speaker_name_identity (db : DB) (h1 h2 : Option Int)
    (b1 b2 : Bool) (N : String) :
    (get_or_create_speaker db h1 (some N) b1
      = get_or_create_speaker db h2 (some N) b2) ∧
    ∃ k db1,
      get_or_create_speaker db h1 (some N) b1 = (.ok k, db1) ∧
      get_or_create_speaker db1 h2 (some N) b2 = (.ok k, db1) := by
  refine ⟨rfl, ?_⟩
  rcases hfind : db.speakers.find? (nameMatches (some N)) with _ | r
  · refine ⟨db.nextSpeakerId,
      { db with speakers := db.speakers ++ [⟨db.nextSpeakerId, N⟩],
                nextSpeakerId := db.nextSpeakerId + 1 }, ?_, ?_⟩
    · unfold get_or_create_speaker
      rw [hfind]
    · unfold get_or_create_speaker
      have hf2 : (db.speakers ++ [(⟨db.nextSpeakerId, N⟩ : SpeakerRow)]).find?
          (nameMatches (some N)) = some ⟨db.nextSpeakerId, N⟩ := by
        rw [find?_append_of_none hfind]
        simp [List.find?, nameMatches]
      rw [hf2]
  · refine ⟨r.id, db, ?_, ?_⟩
    · unfold get_or_create_speaker
      rw [hfind]
    · unfold get_or_create_speaker
      rw [hfind]

/-- C7 counterexample: with an empty name, `get_or_create_speaker` does
not fail with any invalid-argument error — on a fresh store it silently
creates and returns a speaker row whose name is the empty string. -/
theorem get_or_create_speaker_empty_name_counterexample :
    get_or_create_speaker emptyDB (some 1) (some "") false
      = (.ok 1, { emptyDB with speakers := [⟨1, ""⟩], nextSpeakerId := 2 }) :=
  rfl

/-- C7 (amended): `get_or_create_speaker` performs no name validation.  An
empty name succeeds and yields a speaker row with empty name; a null
(`None`) name is not caught by validation either — it falls through to the
INSERT and surfaces as the storage layer's NOT NULL constraint violation,
with no row created. -/
theorem get_or_create_speaker_no_validation (db : DB) (hint : Option Int)
    (b : Bool) :
    (∃ k db1, get_or_create_speaker db hint (some "") b = (.ok k, db1) ∧
      ∃ r ∈ db1.speakers, r.id = k ∧ r.name = "") ∧
    (get_or_create_speaker db hint none b = (.error .notNullViolation, db)) := by
  constructor
  · rcases hfind : db.speakers.find? (nameMatches (some "")) with _ | r
    · refine ⟨db.nextSpeakerId,
        { db with speakers := db.speakers ++ [⟨db.nextSpeakerId, ""⟩],
                  nextSpeakerId := db.nextSpeakerId + 1 }, ?_,
        ⟨db.nextSpeakerId, ""⟩,
        List.mem_append_right _ (List.mem_singleton.mpr rfl), rfl, rfl⟩
      unfold get_or_create_speaker
      rw [hfind]
    · refine ⟨r.id, db, ?_, r, List.mem_of_find?_eq_some hfind, rfl, ?_⟩
      · unfold get_or_create_speaker
        rw [hfind]
      · have := List.find?_some hfind
        simpa [nameMatches] using this
  · have hfind : db.speakers.find? (nameMatches none) = none :=
      List.find?_eq_none.mpr (fun r hr => by simp [nameMatches])
    unfold get_or_create_speaker
    rw [hfind]

/-- C9: for a non-blank external id, two successive
`get_or_create_session` calls return the same surrogate key — the first
creates the row if absent, the second finds it by external id with no
state change — and the number of rows carrying that external id ends up
`max 1 (previous count)`: no duplicate session row is created. -/
theorem get_or_create_session_idempotent (db : DB) (X : String)
    (h : pyBlank X = false) :
    ∃ k db1,
      get_or_create_session db X = (.ok k, db1) ∧
      get_or_create_session db1 X = (.ok k, db1) ∧
      db1.sessions.countP (fun r => r.session_id == X)
        = max 1 (db.sessions.countP (fun r => r.session_id == X)) := by
  rcases hfind : db.sessions.find? (fun r => r.session_id == X) with _ | r
  · refine ⟨db.nextSessionId,
      { db with sessions := db.sessions ++ [⟨db.nextSessionId, X⟩],
                nextSessionId := db.nextSessionId + 1 }, ?_, ?_, ?_⟩
    · unfold get_or_create_session
      rw [if_neg (by simp [h]), hfind]
    · unfold get_or_create_session
      rw [if_neg (by simp [h])]
      have hf2 : (db.sessions ++ [(⟨db.nextSessionId, X⟩ : SessionRow)]).find?
          (fun r => r.session_id == X) = some ⟨db.nextSessionId, X⟩ := by
        rw [find?_append_of_none hfind]
        simp [List.find?]
      rw [hf2]
    · have hzero : db.sessions.countP (fun r => r.session_id == X) = 0 :=
        List.countP_eq_zero.mpr (List.find?_eq_none.mp hfind)
      rw [List.countP_append, hzero]
      simp [List.countP_cons]
  · refine ⟨r.id, db, ?_, ?_, ?_⟩
    · unfold get_or_create_session
      rw [if_neg (by simp [h]), hfind]
    · unfold get_or_create_session
      rw [if_neg (by simp [h]), hfind]
    · have hpred :=
        @List.find?_some SessionRow (fun q => q.session_id == X) r db.sessions hfind
      have hpos : 0 < db.sessions.countP (fun r => r.session_id == X) :=
        List.countP_pos_iff.mpr ⟨r, List.mem_of_find?_eq_some hfind, hpred⟩
      exact (Nat.max_eq_right hpos).symm

/-- Witness for C9: on a fresh store the external id `"s1"` resolves to
key 1 twice, with exactly one matching session row afterwards. -/
theorem get_or_create_session_idempotent_witness :
    ∃ k db1,
      get_or_create_session emptyDB "s1" = (.ok k, db1) ∧
      get_or_create_session db1 "s1" = (.ok k, db1) ∧
      db1.sessions.countP (fun r => r.session_id == "s1")
        = max 1 (emptyDB.sessions.countP (fun r => r.session_id == "s1")) :=
  get_or_create_session_idempotent emptyDB "s1" (by decide)

/-- Frame relation for an update: the fixed columns are untouched, and
each updatable column not named in `ks` is untouched. -/
structure UntouchedOutside (ks : List String) (r q : RefinedRow) : Prop where
  id_eq : q.id = r.id
  session_eq : q.session_id = r.session_id
  speaker_eq : q.refined_speaker_id = r.refined_speaker_id
  lastupdate_eq : q.last_update = r.last_update
  processing_eq : q.is_processing = r.is_processing
  text_eq : "text" ∉ ks → q.text = r.text
  starttime_eq : "start_time" ∉ ks → q.start_time = r.start_time
  endtime_eq : "end_time" ∉ ks → q.end_time = r.end_time
  confidence_eq : "confidence_score" ∉ ks → q.confidence_score = r.confidence_score
  sourcesegments_eq : "source_segments" ∉ ks → q.source_segments = r.source_segments
  metadata_eq : "metadata" ∉ ks → q.metadata = r.metadata
  locked_eq : "is_locked" ∉ ks → q.is_locked = r.is_locked

/-- `UntouchedOutside` holds reflexively. -/
theorem untouched_refl (ks : List String) (r : RefinedRow) :
    UntouchedOutside ks r r :=
  ⟨rfl, rfl, rfl, rfl, rfl, fun _ => rfl, fun _ => rfl, fun _ => rfl,
   fun _ => rfl, fun _ => rfl, fun _ => rfl, fun _ => rfl⟩

/-- A single `SET` assignment never changes the fixed columns. -/
theorem applyField_fixed (r : RefinedRow) (kv : String × PyVal) :
    (applyField r kv).id = r.id ∧ (applyField r kv).session_id = r.session_id ∧
    (applyField r kv).refined_speaker_id = r.refined_speaker_id ∧
    (applyField r kv).last_update = r.last_update ∧
    (applyField r kv).is_processing = r.is_processing := by
  rcases kv with ⟨k, v⟩
  unfold applyField
  split <;> exact ⟨rfl, rfl, rfl, rfl, rfl⟩

/-- A `SET` assignment for a different key leaves `text` alone. -/
theorem applyField_ne_text (r : RefinedRow) (kv : String × PyVal)
    (h : kv.1 ≠ "text") : (applyField r kv).text = r.text := by
  rcases kv with ⟨k, v⟩
  unfold applyField
  split
  all_goals first | rfl | (rename_i kv2 v2 heq; rw [heq] at h; exact absurd rfl h)

/-- A `SET` assignment for a different key leaves `start_time` alone. -/
theorem applyField_ne_starttime (r : RefinedRow) (kv : String × PyVal)
    (h : kv.1 ≠ "start_time") : (applyField r kv).start_time = r.start_time := by
  rcases kv with ⟨k, v⟩
  unfold applyField
  split
  all_goals first | rfl | (rename_i kv2 v2 heq; rw [heq] at h; exact absurd rfl h)

/-- A `SET` assignment for a different key leaves `end_time` alone. -/
theorem applyField_ne_endtime (r : RefinedRow) (kv : String × PyVal)
    (h : kv.1 ≠ "end_time") : (applyField r kv).end_time = r.end_time := by
  rcases kv with ⟨k, v⟩
  unfold applyField
  split
  all_goals first | rfl | (rename_i kv2 v2 heq; rw [heq] at h; exact absurd rfl h)

/-- A `SET` assignment for a different key leaves `confidence_score`
alone. -/
theorem applyField_ne_confidence (r : RefinedRow) (kv : String × PyVal)
    (h : kv.1 ≠ "confidence_score") :
    (applyField r kv).confidence_score = r.confidence_score := by
  rcases kv with ⟨k, v⟩
  unfold applyField
  split
  all_goals first | rfl | (rename_i kv2 v2 heq; rw [heq] at h; exact absurd rfl h)

/-- A `SET` assignment for a different key leaves `source_segments`
alone. -/
theorem applyField_ne_sourcesegments (r : RefinedRow) (kv : String × PyVal)
    (h : kv.1 ≠ "source_segments") :
    (applyField r kv).source_segments = r.source_segments := by
  rcases kv with ⟨k, v⟩
  unfold applyField
  split
  all_goals first | rfl | (rename_i kv2 v2 heq; rw [heq] at h; exact absurd rfl h)

/-- A `SET` assignment for a different key leaves `metadata` alone. -/
theorem applyField_ne_metadata (r : RefinedRow) (kv : String × PyVal)
    (h : kv.1 ≠ "metadata") : (applyField r kv).metadata = r.metadata := by
  rcases kv with ⟨k, v⟩
  unfold applyField
  split
  all_goals first | rfl | (rename_i kv2 v2 heq; rw [heq] at h; exact absurd rfl h)

/-- A `SET` assignment for a different key leaves `is_locked` alone. -/
theorem applyField_ne_locked (r : RefinedRow) (kv : String × PyVal)
    (h : kv.1 ≠ "is_locked") : (applyField r kv).is_locked = r.is_locked := by
  rcases kv with ⟨k, v⟩
  unfold applyField
  split
  all_goals first | rfl | (rename_i kv2 v2 heq; rw [heq] at h; exact absurd rfl h)

/-- The whole `SET` clause touches only the columns named by its keys. -/
theorem applyFields_untouched (l : List (String × PyVal)) :
    ∀ r : RefinedRow,
      UntouchedOutside (l.map Prod.fst) r (l.foldl applyField r) := by
  induction l with
  | nil => intro r; exact untouched_refl [] r
  | cons kv t ih =>
      intro r
      have H := ih (applyField r kv)
      have F := applyField_fixed r kv
      have split_mem : ∀ c : String, c ∉ (kv :: t).map Prod.fst →
          c ≠ kv.1 ∧ c ∉ t.map Prod.fst := by
        intro c hc
        constructor
        · intro e
          exact hc (by rw [List.map_cons, e]; exact List.mem_cons_self _ _)
        · intro m
          exact hc (by rw [List.map_cons]; exact List.mem_cons_of_mem _ m)
      refine ⟨H.id_eq.trans F.1, H.session_eq.trans F.2.1,
        H.speaker_eq.trans F.2.2.1, H.lastupdate_eq.trans F.2.2.2.1,
        H.processing_eq.trans F.2.2.2.2, ?_, ?_, ?_, ?_, ?_, ?_, ?_⟩
      · intro hmem
        obtain ⟨h1, h2⟩ := split_mem _ hmem
        exact (H.text_eq h2).trans (applyField_ne_text r kv (fun e => h1 e.symm))
      · intro hmem
        obtain ⟨h1, h2⟩ := split_mem _ hmem
        exact (H.starttime_eq h2).trans
          (applyField_ne_starttime r kv (fun e => h1 e.symm))
      · intro hmem
        obtain ⟨h1, h2⟩ := split_mem _ hmem
        exact (H.endtime_eq h2).trans
          (applyField_ne_endtime r kv (fun e => h1 e.symm))
      · intro hmem
        obtain ⟨h1, h2⟩ := split_mem _ hmem
        exact (H.confidence_eq h2).trans
          (applyField_ne_confidence r kv (fun e => h1 e.symm))
      · intro hmem
        obtain ⟨h1, h2⟩ := split_mem _ hmem
        exact (H.sourcesegments_eq h2).trans
          (applyField_ne_sourcesegments r kv (fun e => h1 e.symm))
      · intro hmem
        obtain ⟨h1, h2⟩ := split_mem _ hmem
        exact (H.metadata_eq h2).trans
          (applyField_ne_metadata r kv (fun e => h1 e.symm))
      · intro hmem
        obtain ⟨h1, h2⟩ := split_mem _ hmem
        exact (H.locked_eq h2).trans
          (applyField_ne_locked r kv (fun e => h1 e.symm))

/-- C8: `update_refined_segment` applies only the whitelisted fields.  The
call is literally a function of the whitelisted part of the mapping
(non-whitelisted keys are ignored); with no whitelisted key it returns
`false` leaving the state untouched; the other tables are never touched;
and row-wise, rows with a different id are unchanged while the target row
keeps every column outside the supplied whitelisted keys. -/
theorem update_refined_segment_whitelist (db : DB) (segment_id : Int)
    (kwargs : List (String × PyVal)) :
    (update_refined_segment db segment_id kwargs
      = update_refined_segment db segment_id
          (kwargs.filter (fun kv => isWhitelisted kv.1))) ∧
    ((∀ kv ∈ kwargs, isWhitelisted kv.1 = false) →
      update_refined_segment db segment_id kwargs = (false, db)) ∧
    ((update_refined_segment db segment_id kwargs).2.sessions = db.sessions) ∧
    ((update_refined_segment db segment_id kwargs).2.speakers = db.speakers) ∧
    ((update_refined_segment db segment_id kwargs).2.raw_segments
      = db.raw_segments) ∧
    ((update_refined_segment db segment_id kwargs).2.segment_usage
      = db.segment_usage) ∧
    List.Forall₂ (fun r q =>
        (r.id ≠ segment_id → q = r) ∧
        UntouchedOutside
          ((kwargs.filter (fun kv => isWhitelisted kv.1)).map Prod.fst) r q)
      db.refined_segments
      (update_refined_segment db segment_id kwargs).2.refined_segments := by
  constructor
  · simp only [update_refined_segment, filter_self_idem]
  constructor
  · intro hall
    have hnil : kwargs.filter (fun kv => isWhitelisted kv.1) = [] :=
      filter_eq_nil_of_none hall
    simp [update_refined_segment, hnil]
  unfold update_refined_segment
  dsimp only
  split
  next hemp =>
      exact ⟨rfl, rfl, rfl, rfl,
        forall2_self_of (fun r hr => ⟨fun _ => rfl, untouched_refl _ r⟩)⟩
  next hemp =>
      split
      next hbind =>
          refine ⟨rfl, rfl, rfl, rfl, ?_⟩
          exact forall2_map_self (fun r hr => by
            by_cases hid : r.id = segment_id
            · rw [if_pos hid]
              exact ⟨fun hne => absurd hid hne, applyFields_untouched _ r⟩
            · rw [if_neg hid]
              exact ⟨fun _ => rfl, untouched_refl _ r⟩)
      next hbind =>
          exact ⟨rfl, rfl, rfl, rfl,
            forall2_self_of (fun r hr => ⟨fun _ => rfl, untouched_refl _ r⟩)⟩

/-- Witness for C8: an update mapping carrying only a non-whitelisted key
is a `false` no-op on a store with one refined row. -/
theorem update_refined_segment_whitelist_witness :
    update_refined_segment dbRefined1 1 [("bogus", .vint 7)]
      = (false, dbRefined1) :=
  (update_refined_segment_whitelist dbRefined1 1 [("bogus", .vint 7)]).2.1
    (by
      intro kv hkv
      rw [List.mem_singleton.mp hkv]
      rfl)

/-- C10: when the mapping contains a whitelisted field (whose value
binds), `update_refined_segment` returns `true` even when no refined row
has the given id — the `UPDATE` simply matches zero rows and the state is
returned unchanged; the boolean reports only that a whitelisted field was
supplied and the statement ran. -/
theorem update_refined_segment_true_without_row (db : DB) (segment_id : Int)
    (kwargs : List (String × PyVal))
    (h1 : (kwargs.filter (fun kv => isWhitelisted kv.1)).isEmpty = false)
    (h2 : (kwargs.filter (fun kv => isWhitelisted kv.1)).all
        (fun kv => kv.2.bindOk) = true)
    (h3 : ∀ r ∈ db.refined_segments, r.id ≠ segment_id) :
    update_refined_segment db segment_id kwargs = (true, db) := by
  unfold update_refined_segment
  dsimp only
  rw [if_neg (by simp [h1]), if_pos h2]
  have hmap : db.refined_segments.map (fun r =>
      if r.id = segment_id then
        (kwargs.filter (fun kv => isWhitelisted kv.1)).foldl applyField r
      else r) = db.refined_segments :=
    map_eq_self_of (fun r hr => if_neg (h3 r hr))
  rw [hmap]

/-- Witness for C10: on an empty store (no refined row with id 9 exists),
an update carrying the whitelisted `text` key returns `true` and changes
nothing. -/
theorem update_refined_segment_true_without_row_witness :
    update_refined_segment emptyDB 9 [("text", .vstr "x"), ("bogus", .vint 1)]
      = (true, emptyDB) :=
  update_refined_segment_true_without_row emptyDB 9
    [("text", .vstr "x"), ("bogus", .vint 1)] rfl rfl
    (fun r hr => absurd hr (List.not_mem_nil r))

end Thalamus
